import Mathlib

/-!
# Verification of the Sansao contract-first HTTP pipeline

Shallow embedding of the core request/response pipeline of the `sansao`
repository (`src/core/router.ts`, `src/core/app.ts` / compiled `app.js` with
lifecycle hooks, `src/core/context.ts`, `src/validation/*`), together with
proofs settling the frozen claims C1–C10.

Modelling conventions:
* JavaScript values flowing through validation are modelled by the inductive
  `Val` (undefined / null / booleans / numbers / strings / arrays / objects).
  JS numbers are modelled as exact rationals `ℚ`.
* Host-environment builtins (`decodeURIComponent`, `JSON.parse`,
  `JSON.stringify`, `Number(string)`, `URLSearchParams` parsing,
  `FormData` parsing, the `NODE_ENV` development signal) are not repository
  code; they are abstracted as an oracle record `JsEnv` over which theorems
  quantify.
* Asynchronous streams are modelled by `StreamM`: the list of chunks a reader
  observes, each chunk carrying its byte length, its text-decoder
  contribution, and a `slow` flag abstracting "this read would exceed the
  remaining 50 ms deadline" (real time is not representable in a shallow
  embedding; the flag records the outcome of the race in `readWithTimeout`).
* Exceptions thrown by handlers/middleware/hooks are modelled with `Except`
  over the `Thrown` type mirroring `normalizeError`'s case analysis.
-/

namespace Sansao

/-! ## JavaScript string primitives (over `List Char`, kernel-friendly) -/

/-- `String.prototype.split` with a single-character separator. -/
def jsSplitCharAux (sep : Char) : List Char → List Char → List String
  | [], acc => [String.mk acc.reverse]
  | c :: cs, acc =>
    if c = sep then String.mk acc.reverse :: jsSplitCharAux sep cs []
    else jsSplitCharAux sep cs (c :: acc)

/-- `s.split(sep)` for a one-character separator, as in JavaScript. -/
def jsSplitChar (sep : Char) (s : String) : List String :=
  jsSplitCharAux sep s.toList []

/-- `Array.prototype.join(sep)` over strings. -/
def jsJoin (sep : String) : List String → String
  | [] => ""
  | [x] => x
  | x :: xs => x ++ sep ++ jsJoin sep xs

/-- Character-list infix test backing `String.prototype.includes`. -/
def listInfixOf (ns : List Char) : List Char → Bool
  | [] => ns.isEmpty
  | c :: cs => ns.isPrefixOf (c :: cs) || listInfixOf ns cs

/-- `hay.includes(needle)`. -/
def strIncludes (hay needle : String) : Bool :=
  listInfixOf needle.toList hay.toList

/-- `s.startsWith(p)`. -/
def strStartsWith (s p : String) : Bool :=
  p.toList.isPrefixOf s.toList

/-- `s.toLowerCase()` (ASCII case folding suffices for the header and
content-type strings this pipeline inspects). -/
def strToLower (s : String) : String :=
  String.mk (s.toList.map Char.toLower)

/-- `s.trim()` (whitespace as recognized by `Char.isWhitespace`). -/
def strTrim (s : String) : String :=
  String.mk ((s.toList.dropWhile Char.isWhitespace).reverse.dropWhile
    Char.isWhitespace).reverse

/-! ## JavaScript values and plain-object operations -/

/-- A JavaScript value as seen by the validation pipeline. -/
inductive Val where
  | undef
  | nul
  | bool (b : Bool)
  | num (q : ℚ)
  | str (s : String)
  | arr (xs : List Val)
  | obj (fs : List (String × Val))

/-- `o[k] = v` on a plain object: updating an existing key keeps its
position, a new key is appended (JS property-insertion order). -/
def objSet (fs : List (String × Val)) (k : String) (v : Val) :
    List (String × Val) :=
  match fs with
  | [] => [(k, v)]
  | (k', v') :: rest =>
    if k' = k then (k, v) :: rest else (k', v') :: objSet rest k v

/-- Property lookup `o[k]` on a plain object. -/
def objGet (fs : List (String × Val)) (k : String) : Option Val :=
  match fs with
  | [] => none
  | (k', v') :: rest => if k' = k then some v' else objGet rest k

/-- `Object.fromEntries(pairs)` over string-valued pairs: every pair is
assigned in iteration order, so a repeated key keeps its first position but
ends up with its **last** value. -/
def jsFromEntries (entries : List (String × String)) : List (String × Val) :=
  entries.foldl (fun acc kv => objSet acc kv.1 (.str kv.2)) []

/-! ## Router (`src/core/router.ts`) -/

/-- A route contract.  `id` models JavaScript reference identity (the source
keys the handler map by the contract object itself); the schema fields mirror
`ContractDefinition` with an abstract schema type `S`. -/
structure Contract (S : Type) where
  id : Nat
  method : String
  path : String
  params : Option S := none
  query : Option S := none
  headers : Option S := none
  body : Option S := none
  response : Option (List (Nat × S)) := none
  deriving DecidableEq

/-- `RouteMatch`: matched contract plus extracted params. -/
structure RouteMatch (S : Type) where
  contract : Contract S
  params : List (String × String)
  deriving DecidableEq

/-- `getRouteKey`: the composite `method:path` map key. -/
def getRouteKey (method path : String) : String :=
  method ++ ":" ++ path

/-- The router's `Map<string, ContractDefinition>` with JS `Map.set`
semantics: updating an existing key keeps its iteration position. -/
def mapSet {S : Type} (key : String) (c : Contract S) :
    List (String × Contract S) → List (String × Contract S)
  | [] => [(key, c)]
  | (k, v) :: rest =>
    if k = key then (key, c) :: rest else (k, v) :: mapSet key c rest

/-- `Router.register`. -/
def Router.register {S : Type} (c : Contract S)
    (routes : List (String × Contract S)) : List (String × Contract S) :=
  mapSet (getRouteKey c.method c.path) c routes

/-- `key.split(":")[0]` — the method part of a composite key. -/
def splitKeyMethod (key : String) : String :=
  (jsSplitChar ':' key).headD ""

/-- `key.split(":").slice(1).join(":")` — the path part of a composite key. -/
def splitKeyPath (key : String) : String :=
  jsJoin ":" ((jsSplitChar ':' key).drop 1)

/-- `path.split("/").filter(Boolean)` — the non-empty segments of a path. -/
def segsOf (path : String) : List String :=
  (jsSplitChar '/' path).filter (fun s => s ≠ "")

/-- The specificity score: count of static (non-`:`) segments. -/
def staticSegmentCount (routePath : String) : Nat :=
  ((segsOf routePath).filter (fun s => !strStartsWith s ":")).length

/-- Assignment `o[k] = v` on a string-valued record (the `params` object). -/
def strObjSet (fs : List (String × String)) (k v : String) :
    List (String × String) :=
  match fs with
  | [] => [(k, v)]
  | (k', v') :: rest =>
    if k' = k then (k, v) :: rest else (k', v') :: strObjSet rest k v

/-- Segment-by-segment walk of `Router.matchPath`.  `decode` is the host's
`decodeURIComponent`; `none` models a thrown `URIError`, which the source
catches and turns into a non-match. -/
def matchSegs (decode : String → Option String) :
    List String → List String → List (String × String) →
    Option (List (String × String))
  | [], [], params => some params
  | routePart :: routeRest, pathPart :: pathRest, params =>
    if strStartsWith routePart ":" then
      match decode pathPart with
      | none => none
      | some decoded =>
        matchSegs decode routeRest pathRest
          (strObjSet params (routePart.drop 1) decoded)
    else if routePart = pathPart then
      matchSegs decode routeRest pathRest params
    else none
  | _ :: _, [], _ => none
  | [], _ :: _, _ => none

/-- `Router.matchPath`: params on success, `null` (here `none`) otherwise. -/
def matchPath (decode : String → Option String)
    (routePath pathname : String) : Option (List (String × String)) :=
  let routeParts := segsOf routePath
  let pathParts := segsOf pathname
  if routeParts.length ≠ pathParts.length then none
  else matchSegs decode routeParts pathParts []

/-- The loop body of `Router.find`: tracks `bestMatch` and
`bestStaticSegments` (initialised to `-1`, hence `Int`). -/
def findAux {S : Type} (decode : String → Option String)
    (method pathname : String) :
    List (String × Contract S) → Option (RouteMatch S) × Int →
    Option (RouteMatch S) × Int
  | [], acc => acc
  | (key, contract) :: rest, (best, bestScore) =>
    if splitKeyMethod key ≠ method then
      findAux decode method pathname rest (best, bestScore)
    else
      match matchPath decode (splitKeyPath key) pathname with
      | none => findAux decode method pathname rest (best, bestScore)
      | some params =>
        let score : Int := staticSegmentCount (splitKeyPath key)
        if bestScore < score then
          findAux decode method pathname rest (some ⟨contract, params⟩, score)
        else
          findAux decode method pathname rest (best, bestScore)

/-- `Router.find`: best-specificity match for a method + pathname. -/
def Router.find {S : Type} (decode : String → Option String)
    (routes : List (String × Contract S)) (method pathname : String) :
    Option (RouteMatch S) :=
  (findAux decode method pathname routes (none, -1)).1

/-- Concrete routes for the C1 scenario. -/
def exLit : Contract Unit := { id := 0, method := "GET", path := "/users/me" }
def exPar : Contract Unit := { id := 1, method := "GET", path := "/users/:id" }
def exTable : List (String × Contract Unit) :=
  Router.register exLit (Router.register exPar [])


/-! ## Candidate predicate for route lookups -/

/-- A registered entry that successfully matches a lookup. -/
def IsCandidate {S : Type} (decode : String → Option String)
    (routes : List (String × Contract S)) (method pathname key : String)
    (c : Contract S) (params : List (String × String)) : Prop :=
  (key, c) ∈ routes ∧ splitKeyMethod key = method ∧
    matchPath decode (splitKeyPath key) pathname = some params


/-! ## The validation-adapter interface and host-environment oracles -/

/-- `ValidationAdapter` (`src/validation/types.ts`): `parse` returns
success-with-data or failure-with-error; `getErrorPaths` is optional. -/
structure Validator (S E : Type) where
  parse : S → Val → Except E Val
  getErrorPaths : Option (E → List String) := none

/-- `{ error, code?, details? }` — the HTTP-facing error payload shape.
`details` is either a pipeline-level string or an adapter error. -/
structure ErrorPayload (E : Type) where
  error : String
  code : Option String := none
  details : Option (String ⊕ E) := none

/-- Host-environment builtins abstracted as oracles.  `jsNumber s` is the
value of `Number(s)` whenever that is finite (`jsNumberFinite s`); JS numbers
are modelled as exact rationals. -/
structure JsEnv (E : Type) where
  decodeURIComponent : String → Option String
  jsonParse : String → Option Val
  jsonStringifyError : ErrorPayload E → String
  jsNumber : String → ℚ
  jsNumberFinite : String → Bool
  parseQueryString : String → List (String × String)
  parseFormData : String → Option (List (String × String))
  devRuntime : Bool

/-- `ResponseValidationMode`. -/
inductive RVMode where
  | off
  | development
  | always
  deriving DecidableEq

/-- One observed read of a response body stream: its byte length, the text
the UTF-8 streaming decoder contributes for it, and whether this read loses
the race against the 50 ms deadline (`readWithTimeout` resolving
`"timeout"`); real time itself is not representable in this embedding. -/
structure Chunk where
  byteLength : Nat
  text : String
  slow : Bool := false
  deriving DecidableEq

/-- A readable body stream as its reader observes it: the chunk sequence, the
final flush of the text decoder, and whether the terminal read rejects. -/
structure StreamM where
  chunks : List Chunk
  flushText : String := ""
  readRejects : Bool := false
  deriving DecidableEq

/-- The stream of a `Response` constructed from a string body. -/
def StreamM.ofString (s : String) : StreamM :=
  { chunks := [{ byteLength := s.utf8ByteSize, text := s }] }

/-- A Fetch-API `Response`. -/
structure ResponseM where
  status : Nat
  headers : List (String × String) := []
  body : Option StreamM := none
  deriving DecidableEq

/-- A Fetch-API `Request`, already split into the pieces `fetch` consumes
(`new URL(request.url)` is a host operation). -/
structure RequestM where
  method : String
  pathname : String
  searchParams : List (String × String) := []
  headers : List (String × String) := []
  bodyText : String := ""
  deriving DecidableEq

/-- `headers.get(name)` — case-insensitive header lookup. -/
def headersGet (hs : List (String × String)) (name : String) : Option String :=
  (hs.find? (fun p => strToLower p.1 = strToLower name)).map Prod.snd

/-- The per-request `Context`; `params`/`query`/`body`/`headers` default to
`{}` exactly as in the `Context` class. -/
structure Ctx where
  request : RequestM
  params : Val := .obj []
  query : Val := .obj []
  body : Val := .obj []
  headers : Val := .obj []

/-- A value thrown by a handler/middleware/hook, shaped by the cases
`normalizeError` distinguishes: an `HttpError`, a plain object with a numeric
`status`, a generic `Error`, or anything else. -/
inductive Thrown (E : Type) where
  | httpError (status : ℚ) (message : String) (code : Option String)
      (details : Option (String ⊕ E))
  | objWithStatus (status : ℚ) (message : Option String)
      (code : Option String) (details : Option (String ⊕ E))
  | jsError (message : String)
  | nonError

/-- A route handler. -/
def HandlerFn (E : Type) : Type :=
  Ctx → Except (Thrown E) ResponseM

/-- A Koa-style middleware. -/
def MiddlewareFn (E : Type) : Type :=
  Ctx → (Unit → Except (Thrown E) ResponseM) → Except (Thrown E) ResponseM

/-- A lifecycle event handed to hooks (wall-clock fields carry no
information for the pipeline's result; hook return values are discarded). -/
structure HookEvent (S E : Type) where
  method : String
  path : String
  contract : Option (Contract S) := none
  params : Option (List (String × String)) := none
  response : Option ResponseM := none
  error : Option (Thrown E) := none

/-- The three optional lifecycle hooks. -/
structure Hooks (S E : Type) where
  onRequest : Option (HookEvent S E → Except (Thrown E) Unit) := none
  onResponse : Option (HookEvent S E → Except (Thrown E) Unit) := none
  onError : Option (HookEvent S E → Except (Thrown E) Unit) := none

/-- `App.invokeHook`: absent hooks are skipped and hook failures are caught
and discarded — they must never break request processing. -/
def invokeHook {S E : Type}
    (hook : Option (HookEvent S E → Except (Thrown E) Unit))
    (event : HookEvent S E) : Except (Thrown E) Unit :=
  match hook with
  | none => .ok ()
  | some h =>
    match h event with
    | .ok _ => .ok ()
    | .error _ => .ok ()

/-- The application instance: router table, handler map (keyed by contract
identity), middleware list, options. -/
structure AppM (S E : Type) where
  routes : List (String × Contract S) := []
  handlers : List (Nat × HandlerFn E) := []
  middlewares : List (MiddlewareFn E) := []
  responseValidation : RVMode := .development
  hooks : Hooks S E := {}
  validator : Validator S E

/-! ## Query and body parsing (`App.parseQuery`, `App.parseBody`, …) -/

/-- A query-object value: a string, or a list for repeated keys. -/
inductive QueryVal where
  | single (s : String)
  | multi (ss : List String)
  deriving DecidableEq

/-- Assignment on the query object (JS plain-object semantics). -/
def queryObjSet (fs : List (String × QueryVal)) (k : String) (v : QueryVal) :
    List (String × QueryVal) :=
  match fs with
  | [] => [(k, v)]
  | (k', v') :: rest =>
    if k' = k then (k, v) :: rest else (k', v') :: queryObjSet rest k v

/-- `Object.prototype.hasOwnProperty`-style lookup on the query object. -/
def queryObjGet (fs : List (String × QueryVal)) (k : String) :
    Option QueryVal :=
  match fs with
  | [] => none
  | (k', v') :: rest => if k' = k then some v' else queryObjGet rest k

/-- The query-object construction loop of `parseQuery`: first occurrence
stores the string, repeats promote to a list preserving order. -/
def buildQueryObj (searchParams : List (String × String)) :
    List (String × QueryVal) :=
  searchParams.foldl
    (fun obj kv =>
      match queryObjGet obj kv.1 with
      | some (QueryVal.multi ss) => queryObjSet obj kv.1 (.multi (ss ++ [kv.2]))
      | some (QueryVal.single s) => queryObjSet obj kv.1 (.multi [s, kv.2])
      | none => queryObjSet obj kv.1 (.single kv.2))
    []

/-- Injection of a query-object value into `Val`. -/
def queryValToVal : QueryVal → Val
  | .single s => .str s
  | .multi ss => .arr (ss.map .str)

/-- The query object as the `Val` handed to the validation adapter. -/
def queryObjToVal (obj : List (String × QueryVal)) : Val :=
  .obj (obj.map fun kv => (kv.1, queryValToVal kv.2))

/-- ASCII digit test for the numeral grammar. -/
def isAsciiDigit (c : Char) : Bool :=
  '0' ≤ c && c ≤ '9'

/-- Integer part `(0|[1-9]\d*)` of the numeral grammar; returns the unread
rest on success. -/
def numeralIntPart : List Char → Option (List Char)
  | [] => none
  | c :: cs =>
    if c = '0' then some cs
    else if isAsciiDigit c then some (cs.dropWhile isAsciiDigit)
    else none

/-- Optional fraction part `(\.\d+)?` of the numeral grammar. -/
def numeralFracOk : List Char → Bool
  | [] => true
  | c :: cs => c = '.' && !cs.isEmpty && cs.all isAsciiDigit

/-- The regular expression `/^-?(?:0|[1-9]\d*)(?:\.\d+)?$/` used by
`coerceQueryValue`. -/
def isNumeralString (s : String) : Bool :=
  let cs :=
    match s.toList with
    | '-' :: rest => rest
    | cs => cs
  match numeralIntPart cs with
  | none => false
  | some rest => numeralFracOk rest

/-- `App.coerceQueryValue`: coerces the scalar string literals `"true"`,
`"false"`, `"null"` and numeral-grammar strings. -/
def coerceQueryValue {E : Type} (env : JsEnv E) (value : String) : Val :=
  if value = "true" then .bool true
  else if value = "false" then .bool false
  else if value = "null" then .nul
  else if isNumeralString value then .num (env.jsNumber value)
  else .str value

/-- `App.coerceQueryObject`: coerces exactly the keys in `keysToCoerce`,
leaving every other key's raw value untouched. -/
def coerceQueryObject {E : Type} (env : JsEnv E)
    (input : List (String × QueryVal)) (keysToCoerce : List String) :
    List (String × Val) :=
  input.map fun kv =>
    if kv.1 ∈ keysToCoerce then
      (kv.1,
        match kv.2 with
        | .multi ss => Val.arr (ss.map (coerceQueryValue env))
        | .single s => coerceQueryValue env s)
    else (kv.1, queryValToVal kv.2)

/-- `App.parseQuery` (adapter version of `app.js`): validate the raw
string-valued object; on failure ask `getErrorPaths` for the failing
top-level keys, coerce exactly those, and validate exactly once more. -/
def parseQuery {S E : Type} (env : JsEnv E) (v : Validator S E) (schema : S)
    (searchParams : List (String × String)) : Except E Val :=
  let obj := buildQueryObj searchParams
  match v.parse schema (queryObjToVal obj) with
  | .ok data => .ok data
  | .error rawError =>
    match v.getErrorPaths with
    | none => .error rawError
    | some getErrorPaths =>
      let keysToCoerce := getErrorPaths rawError
      if keysToCoerce.isEmpty then .error rawError
      else v.parse schema (.obj (coerceQueryObject env obj keysToCoerce))

/-- The raw params record as a `Val`. -/
def paramsToVal (params : List (String × String)) : Val :=
  .obj (params.map fun kv => (kv.1, Val.str kv.2))

/-- `App.parseParams`. -/
def parseParams {S E : Type} (v : Validator S E) (schema : S)
    (params : List (String × String)) : Except E Val :=
  v.parse schema (paramsToVal params)

/-- `App.parseHeaders`: `Headers` iteration yields lowercase names, the
source copies them into a plain object and validates it. -/
def headersToVal (hs : List (String × String)) : Val :=
  .obj (hs.foldl (fun acc kv => objSet acc (strToLower kv.1) (.str kv.2)) [])

/-- `App.parseHeaders`. -/
def parseHeaders {S E : Type} (v : Validator S E) (schema : S)
    (hs : List (String × String)) : Except E Val :=
  v.parse schema (headersToVal hs)

/-- `App.formDataToObject`: repeated field names collect into a list. -/
def formDataToObject (entries : List (String × String)) : Val :=
  .obj (entries.foldl
    (fun acc kv =>
      match objGet acc kv.1 with
      | none => objSet acc kv.1 (.str kv.2)
      | some (Val.arr xs) => objSet acc kv.1 (.arr (xs ++ [.str kv.2]))
      | some current => objSet acc kv.1 (.arr [current, .str kv.2]))
    [])

/-- `App.parseBody`: content-type dispatched body parsing followed by
adapter validation.  Parse-level failures are `Sum.inl` strings, adapter
failures are `Sum.inr` errors. -/
def parseBody {S E : Type} (env : JsEnv E) (v : Validator S E) (schema : S)
    (req : RequestM) : Except (String ⊕ E) Val :=
  let contentType := (headersGet req.headers "content-type").getD ""
  if strIncludes contentType "application/json" then
    let rawBody := req.bodyText
    if strTrim rawBody = "" then (v.parse schema .undef).mapError Sum.inr
    else
      match env.jsonParse rawBody with
      | none => .error (.inl "Invalid JSON")
      | some data => (v.parse schema data).mapError Sum.inr
  else if strIncludes contentType "application/x-www-form-urlencoded" then
    let data := Val.obj (jsFromEntries (env.parseQueryString req.bodyText))
    (v.parse schema data).mapError Sum.inr
  else if strIncludes contentType "multipart/form-data" then
    match env.parseFormData req.bodyText with
    | none => .error (.inl "Invalid multipart form data")
    | some entries => (v.parse schema (formDataToObject entries)).mapError Sum.inr
  else
    match env.jsonParse req.bodyText with
    | some data => (v.parse schema data).mapError Sum.inr
    | none => (v.parse schema (.str req.bodyText)).mapError Sum.inr

/-! ## Streaming-safe response validation -/

def RESPONSE_VALIDATION_MAX_BODY_BYTES : Nat := 1024 * 1024

/-- Result of `readResponseText`. -/
inductive ReadTextResult where
  | data (s : String)
  | skipped
  | failed (e : String)
  deriving DecidableEq

/-- The read loop of `App.readResponseText`: accumulate decoded chunks and a
byte count; a read losing the deadline race (when a timeout applies) or the
cumulative size exceeding the 1 MiB cap cancels the read as `skipped`; a
rejected read fails. -/
def readChunksLoop (useTimeout : Bool) (flushText : String)
    (readRejects : Bool) :
    List Chunk → String → Nat → ReadTextResult
  | [], acc, _ =>
    if readRejects then .failed "Failed to read response body"
    else .data (acc ++ flushText)
  | c :: rest, acc, totalBytes =>
    if useTimeout && c.slow then .skipped
    else
      let total := totalBytes + c.byteLength
      if total > RESPONSE_VALIDATION_MAX_BODY_BYTES then .skipped
      else readChunksLoop useTimeout flushText readRejects rest (acc ++ c.text) total

/-- `App.readResponseText`. -/
def readResponseText (body : Option StreamM) (useTimeout : Bool) :
    ReadTextResult :=
  match body with
  | none => .data ""
  | some st => readChunksLoop useTimeout st.flushText st.readRejects st.chunks "" 0

/-- `App.isJsonContentType`. -/
def isJsonContentType (contentType : String) : Bool :=
  strIncludes contentType "application/json" || strIncludes contentType "+json"

/-- `App.shouldSkipResponseBodyValidation`: event-stream / NDJSON content
types, or a declared `content-length` above the 1 MiB cap, skip validation. -/
def shouldSkipResponseBodyValidation {E : Type} (env : JsEnv E)
    (r : ResponseM) (contentType : String) : Bool :=
  match r.body with
  | none => false
  | some _ =>
    let normalizedType := strToLower contentType
    if strIncludes normalizedType "text/event-stream" ||
        strIncludes normalizedType "application/x-ndjson" then true
    else
      match headersGet r.headers "content-length" with
      | none => false
      | some contentLength =>
        if contentLength = "" then false
        else if !env.jsNumberFinite contentLength then false
        else if env.jsNumber contentLength < 0 then false
        else decide ((RESPONSE_VALIDATION_MAX_BODY_BYTES : ℚ) <
          env.jsNumber contentLength)

/-- Result of `App.readResponseBody`. -/
inductive BodyReadResult where
  | data (v : Val)
  | skipped
  | failed (e : String)

/-- `App.readResponseBody`: 204/304 and bodyless responses read as
`undefined`; skippable streams are skipped; otherwise the clone's text is
read (with a timeout when no valid `content-length` is declared) and parsed
as JSON for JSON content types. -/
def readResponseBody {E : Type} (env : JsEnv E) (r : ResponseM) :
    BodyReadResult :=
  if r.status = 204 ∨ r.status = 304 then .data .undef
  else
    match r.body with
    | none => .data .undef
    | some body =>
      let contentType := (headersGet r.headers "content-type").getD ""
      let normalizedType := strToLower contentType
      if shouldSkipResponseBodyValidation env r normalizedType then .skipped
      else
        let contentLength := headersGet r.headers "content-length"
        let hasValidContentLength :=
          match contentLength with
          | none => false
          | some s =>
            if strTrim s = "" then false
            else env.jsNumberFinite s && decide (0 ≤ env.jsNumber s)
        match readResponseText (some body) (!hasValidContentLength) with
        | .failed e => .failed e
        | .skipped => .skipped
        | .data text =>
          if isJsonContentType normalizedType then
            if strTrim text = "" then .data .undef
            else
              match env.jsonParse text with
              | some v => .data v
              | none => .failed "Response body is not valid JSON"
          else .data (.str text)

/-- `App.shouldValidateResponse`. -/
def shouldValidateResponse {E : Type} (env : JsEnv E) (mode : RVMode) : Bool :=
  match mode with
  | .always => true
  | .off => false
  | .development => env.devRuntime

/-- `contract.response[response.status]`. -/
def lookupResponseSchema {S : Type} (schemas : List (Nat × S)) (status : Nat) :
    Option S :=
  (schemas.find? (fun p => p.1 = status)).map Prod.snd

/-- `App.validateResponse`. -/
def validateResponse {S E : Type} (env : JsEnv E) (v : Validator S E)
    (mode : RVMode) (contract : Contract S) (r : ResponseM) :
    Except (String ⊕ E) Unit :=
  if !shouldValidateResponse env mode then .ok ()
  else
    match contract.response with
    | none => .ok ()
    | some schemas =>
      match lookupResponseSchema schemas r.status with
      | none => .ok ()
      | some schema =>
        match readResponseBody env r with
        | .failed e => .error (.inl e)
        | .skipped => .ok ()
        | .data d =>
          match v.parse schema d with
          | .ok _ => .ok ()
          | .error e => .error (.inr e)

/-! ## Error normalization and the dispatcher (`App.fetch`) -/

/-- `App.normalizeStatusCode`: integral and within 100–599, else 500. -/
def normalizeStatusCode (status : ℚ) : Nat :=
  if status.den = 1 ∧ (100 : ℚ) ≤ status ∧ status ≤ 599 then status.num.toNat
  else 500

/-- The normalized form of a thrown value. -/
structure NormalizedError (E : Type) where
  status : Nat
  message : String
  code : Option String := none
  details : Option (String ⊕ E) := none

/-- `App.normalizeError`. -/
def normalizeError {E : Type} : Thrown E → NormalizedError E
  | .httpError status message code details =>
    { status := normalizeStatusCode status,
      message := if message = "" then "Internal Server Error" else message,
      code := code, details := details }
  | .objWithStatus status message code details =>
    { status := normalizeStatusCode status,
      message :=
        match message with
        | some m => if m.length > 0 then m else "Internal Server Error"
        | none => "Internal Server Error",
      code := code, details := details }
  | .jsError message =>
    { status := 500,
      message := if message = "" then "Internal Server Error" else message }
  | .nonError => { status := 500, message := "Internal Server Error" }

/-- `App.errorResponse`: a JSON response for the structured error payload. -/
def errorResponse {E : Type} (env : JsEnv E) (status : ℚ) (error : String)
    (code : Option String := none) (details : Option (String ⊕ E) := none) :
    ResponseM :=
  let payload : ErrorPayload E := { error, code, details }
  { status := normalizeStatusCode status,
    headers := [("content-type", "application/json")],
    body := some (StreamM.ofString (env.jsonStringifyError payload)) }

/-- A phase-validation failure with its code and details. -/
structure PhaseError (E : Type) where
  status : ℚ
  message : String
  code : String
  details : String ⊕ E

variable {S E : Type}

/-- The params phase of `fetch`: validated data, or the raw string map when
the contract has no params schema. -/
def paramsPhase (v : Validator S E) (c : Contract S)
    (params : List (String × String)) : Except (PhaseError E) Val :=
  match c.params with
  | none => .ok (paramsToVal params)
  | some schema =>
    match parseParams v schema params with
    | .ok data => .ok data
    | .error e => .error ⟨400, "Invalid params", "INVALID_PARAMS", .inr e⟩

/-- The query phase of `fetch`: validated data, or
`Object.fromEntries(url.searchParams)` when the contract has no query
schema. -/
def queryPhase (env : JsEnv E) (v : Validator S E) (c : Contract S)
    (searchParams : List (String × String)) : Except (PhaseError E) Val :=
  match c.query with
  | none => .ok (.obj (jsFromEntries searchParams))
  | some schema =>
    match parseQuery env v schema searchParams with
    | .ok data => .ok data
    | .error e => .error ⟨400, "Invalid query", "INVALID_QUERY", .inr e⟩

/-- The headers phase of `fetch`: `none` means the context's headers are
left untouched (no schema → headers are not copied onto the context). -/
def headersPhase (v : Validator S E) (c : Contract S)
    (hs : List (String × String)) : Except (PhaseError E) (Option Val) :=
  match c.headers with
  | none => .ok none
  | some schema =>
    match parseHeaders v schema hs with
    | .ok data => .ok (some data)
    | .error e => .error ⟨400, "Invalid headers", "INVALID_HEADERS", .inr e⟩

/-- The body phase of `fetch`: runs only for a declared body schema on a
method that carries a payload. -/
def bodyPhase (env : JsEnv E) (v : Validator S E) (c : Contract S)
    (req : RequestM) : Except (PhaseError E) (Option Val) :=
  match c.body with
  | none => .ok none
  | some schema =>
    if req.method = "POST" ∨ req.method = "PUT" ∨ req.method = "PATCH" ∨
        req.method = "DELETE" then
      match parseBody env v schema req with
      | .ok data => .ok (some data)
      | .error e => .error ⟨400, "Invalid body", "INVALID_BODY", e⟩
    else .ok none

/-- The phase-ordered context construction of `fetch`
(params → query → headers → body), short-circuiting on the first failure. -/
def buildContext (env : JsEnv E) (v : Validator S E) (c : Contract S)
    (params : List (String × String)) (req : RequestM) :
    Except (PhaseError E) Ctx := do
  let pv ← paramsPhase v c params
  let qv ← queryPhase env v c req.searchParams
  let hv ← headersPhase v c req.headers
  let bv ← bodyPhase env v c req
  .ok { request := req, params := pv, query := qv,
        headers := hv.getD (Val.obj []), body := bv.getD (Val.obj []) }

/-- `executeMiddleware`: registration-order nested continuations ending in
the handler. -/
def executeMiddleware (handler : HandlerFn E) (ctx : Ctx) :
    List (MiddlewareFn E) → Except (Thrown E) ResponseM
  | [] => handler ctx
  | mw :: rest => mw ctx (fun _ => executeMiddleware handler ctx rest)

/-- The post-handler step of `fetch`: response validation; a failure
replaces the handler's response with a 500 `INVALID_RESPONSE`. -/
def respondAfterHandler (env : JsEnv E) (v : Validator S E) (mode : RVMode)
    (contract : Contract S) (response : ResponseM) : ResponseM :=
  match validateResponse env v mode contract response with
  | .error err =>
    errorResponse env 500 "Invalid response" (some "INVALID_RESPONSE")
      (some err)
  | .ok _ => response

/-- Handler lookup `this.handlers.get(contract)` (contract identity). -/
def handlersGet (hs : List (Nat × HandlerFn E)) (id : Nat) :
    Option (HandlerFn E) :=
  (hs.find? (fun p => p.1 = id)).map Prod.snd

/-- `createRequestEvent` (wall-clock fields omitted; hook results are
discarded). -/
def createRequestEvent (req : RequestM) (contract : Option (Contract S))
    (params : Option (List (String × String))) : HookEvent S E :=
  { method := req.method, path := req.pathname, contract := contract,
    params := params }

/-- `createResponseEvent`. -/
def createResponseEvent (req : RequestM) (contract : Option (Contract S))
    (params : Option (List (String × String))) (r : ResponseM) :
    HookEvent S E :=
  { createRequestEvent req contract params with response := some r }

/-- `createErrorEvent`. -/
def createErrorEvent (req : RequestM) (e : Thrown E) : HookEvent S E :=
  { method := req.method, path := req.pathname, error := some e }

/-- The `try`-block of `App.fetch`: routing, phase validation, middleware,
handler, response validation, response hooks.  A `.error` is a value thrown
to the surrounding `catch`. -/
def fetchE (env : JsEnv E) (app : AppM S E) (req : RequestM) :
    Except (Thrown E) ResponseM := do
  let _ ← invokeHook app.hooks.onRequest (createRequestEvent req none none)
  match Router.find env.decodeURIComponent app.routes req.method req.pathname with
  | none =>
    let response := errorResponse env 404 "Not Found" (some "ROUTE_NOT_FOUND")
    let _ ← invokeHook app.hooks.onResponse
      (createResponseEvent req none none response)
    return response
  | some m =>
    match handlersGet app.handlers m.contract.id with
    | none =>
      let response := errorResponse env 500 "Handler not found"
        (some "HANDLER_NOT_FOUND")
      let _ ← invokeHook app.hooks.onResponse
        (createResponseEvent req (some m.contract) (some m.params) response)
      return response
    | some handler =>
      match buildContext env app.validator m.contract m.params req with
      | .error pe =>
        let response := errorResponse env pe.status pe.message (some pe.code)
          (some pe.details)
        let _ ← invokeHook app.hooks.onResponse
          (createResponseEvent req (some m.contract) (some m.params) response)
        return response
      | .ok ctx =>
        let response ← executeMiddleware handler ctx app.middlewares
        let finalResponse := respondAfterHandler env app.validator
          app.responseValidation m.contract response
        let _ ← invokeHook app.hooks.onResponse
          (createResponseEvent req (some m.contract) (some m.params)
            finalResponse)
        return finalResponse

/-- `App.fetch`: the `try` block plus the `catch` that normalizes any thrown
value into a structured error response (after firing the error and response
hooks, whose failures are swallowed inside `invokeHook`). -/
def fetch (env : JsEnv E) (app : AppM S E) (req : RequestM) : ResponseM :=
  match fetchE env app req with
  | .ok response => response
  | .error e =>
    let _ := invokeHook app.hooks.onError (createErrorEvent req e)
    let n := normalizeError e
    let response := errorResponse env (n.status : ℚ) n.message n.code n.details
    let _ := invokeHook app.hooks.onResponse
      (createResponseEvent req none none response)
    response

/-! ## Spec-comparison definitions and derived notions -/

/-- Written from the **spec's words** (§4.2 passthrough description), for
refinement comparison only: "first-value-wins flattening of the raw query
string with repeated keys promoted to lists". -/
def specQueryFlatten (searchParams : List (String × String)) : Val :=
  queryObjToVal (buildQueryObj searchParams)

/-- The last value a query string assigns to a key (what
`Object.fromEntries` keeps). -/
def jsLastValue (searchParams : List (String × String)) (k : String) :
    Option String :=
  searchParams.foldl (fun r kv => if kv.1 = k then some kv.2 else r) none

/-- The lowercased content type of a response, as `readResponseBody`
computes it. -/
def responseNormalizedType (r : ResponseM) : String :=
  strToLower ((headersGet r.headers "content-type").getD "")

/-! ## The lazy hook-view state machine
(`createHookRequestView` / `createHookResponseView` /
`createHookBodyStreamView`)

The source wraps the live request/response in a `Proxy` whose `get` handler
routes body-reading members through a memoized `getBodyClone()` and serves
everything else from the original.  The machine below is that handler's
state-transition behavior: `HookOp` enumerates the property accesses a hook
can perform on the view, and `hookViewStep` is the effect the `get` handler
has on the view's hidden state (`bodyClone` memo, clone-operation count) and
on the original object.  Nothing in the handler writes to the original:
reader methods call `clone[method]`, stream members are served from
`getBodyClone().body`, and `bodyUsed`/metadata are plain reads. -/

/-- Hidden state of one hook view. -/
structure HookViewState where
  hasBodyClone : Bool := false
  cloneOps : Nat := 0
  originalRead : Bool := false
  originalLocked : Bool := false
  deriving DecidableEq

/-- A property access a hook can perform on the view. -/
inductive HookOp where
  | readText
  | readJson
  | readArrayBuffer
  | readBlob
  | readFormData
  | readBytes
  | streamRead
  | getBodyProp
  | getStreamLocked
  | getStatus
  | getHeaders
  | getBodyUsed
  | getOther
  deriving DecidableEq

/-- The body-reading operations (read-as-text/JSON/bytes/… or pulling a
stream member other than `locked`). -/
def HookOp.isBodyRead : HookOp → Bool
  | .readText | .readJson | .readArrayBuffer | .readBlob | .readFormData
  | .readBytes | .streamRead => true
  | _ => false

/-- `getBodyClone()`: memoized — clones on first use only. -/
def getBodyClone (s : HookViewState) : HookViewState :=
  if s.hasBodyClone then s
  else { s with hasBodyClone := true, cloneOps := s.cloneOps + 1 }

/-- One property access through the view's `get` handler. -/
def hookViewStep (s : HookViewState) : HookOp → HookViewState
  | .readText | .readJson | .readArrayBuffer | .readBlob | .readFormData
  | .readBytes => getBodyClone s
  | .streamRead => getBodyClone s
  | .getBodyProp | .getStreamLocked | .getStatus | .getHeaders
  | .getBodyUsed | .getOther => s

/-- A hook's whole interaction with a view during one event. -/
def hookViewRun (s : HookViewState) (ops : List HookOp) : HookViewState :=
  ops.foldl hookViewStep s

/-! ## Concrete adapter, environment, and fixtures for witnesses -/

/-- Field kinds of the demonstration schema language. -/
inductive FieldKind where
  | fstring
  | fnumber
  deriving DecidableEq

/-- A small concrete schema language: a record of typed fields, optionally
accepting `undefined` wholesale. -/
inductive DemoSchema where
  | record (fields : List (String × FieldKind))
  | optionalRecord (fields : List (String × FieldKind))
  deriving DecidableEq

/-- Errors of the demonstration adapter: the failing top-level keys. -/
abbrev DemoError := List String

/-- Does a value conform to a field kind? -/
def demoCheckField : FieldKind → Val → Bool
  | .fstring, .str _ => true
  | .fnumber, .num _ => true
  | _, _ => false

/-- Record validation of the demonstration adapter. -/
def demoParseRecord (fields : List (String × FieldKind)) (v : Val) :
    Except DemoError Val :=
  match v with
  | .obj fs =>
    let failing := (fields.filter fun kv =>
      match objGet fs kv.1 with
      | some value => !demoCheckField kv.2 value
      | none => true).map Prod.fst
    if failing.isEmpty then .ok v else .error failing
  | _ => .error (fields.map Prod.fst)

/-- `parse` of the demonstration adapter. -/
def demoParse : DemoSchema → Val → Except DemoError Val
  | .optionalRecord _, .undef => .ok .undef
  | .optionalRecord fields, v => demoParseRecord fields v
  | .record fields, v => demoParseRecord fields v

/-- The demonstration validation adapter, with error-path introspection. -/
def demoValidator : Validator DemoSchema DemoError :=
  { parse := demoParse, getErrorPaths := some id }

/-- A concrete host environment for witnesses (finite tables suffice). -/
def demoEnv : JsEnv DemoError :=
  { decodeURIComponent := fun s => some s
    jsonParse := fun s =>
      if s = "\x7b\"id\":\"1\"\x7d" then some (.obj [("id", .str "1")]) else none
    jsonStringifyError := fun p => p.error
    jsNumber := fun s => if s = "2" then 2 else 0
    jsNumberFinite := fun s => s = "2"
    parseQueryString := fun _ => []
    parseFormData := fun _ => none
    devRuntime := true }

/-- A host environment whose `decodeURIComponent` always throws. -/
def demoEnvBadDecode : JsEnv DemoError :=
  { demoEnv with decodeURIComponent := fun _ => none }

/-- Query schema `{id: string, page: number}` of the C2 scenario. -/
def demoQuerySchema : DemoSchema :=
  .record [("id", .fstring), ("page", .fnumber)]

/-- A contract with no schemas at all. -/
def cNoSchema : Contract DemoSchema :=
  { id := 10, method := "GET", path := "/q" }

/-- A contract declaring a response schema for status 200. -/
def cResp200 : Contract DemoSchema :=
  { id := 11, method := "GET", path := "/r",
    response := some [(200, .record [("id", .fstring), ("name", .fstring)])] }

/-- A contract declaring a response schema for status 204. -/
def c204 : Contract DemoSchema :=
  { id := 12, method := "GET", path := "/n",
    response := some [(204, .record [("x", .fstring)])] }

/-- A 204 response (bodyless, as the `Response` constructor enforces). -/
def r204 : ResponseM := { status := 204 }

/-- A 200 JSON response whose body lacks the required `name` field. -/
def rBad200 : ResponseM :=
  { status := 200, headers := [("content-type", "application/json")],
    body := some (StreamM.ofString "\x7b\"id\":\"1\"\x7d") }

/-- A contract declaring a response schema for status 200 (SSE scenario). -/
def cSSE : Contract DemoSchema :=
  { id := 13, method := "GET", path := "/s",
    response := some [(200, .record [("x", .fstring)])] }

/-- A bodyless response claiming the SSE content type. -/
def rSSEBodyless : ResponseM :=
  { status := 200, headers := [("content-type", "text/event-stream")] }

/-- An SSE response with a live stream body. -/
def rSSEStream : ResponseM :=
  { status := 200, headers := [("content-type", "text/event-stream")],
    body := some { chunks := [{ byteLength := 5, text := "data:" }] } }

/-- A contract with a parameterized path. -/
def cUserById : Contract DemoSchema :=
  { id := 14, method := "GET", path := "/users/:id" }

/-- An app with only `GET /users/:id` registered (no handler needed for the
routing-failure scenario). -/
def appUserById : AppM DemoSchema DemoError :=
  { routes := Router.register cUserById [], validator := demoValidator }

/-- A request whose pathname segment fails percent-decoding. -/
def reqBadSegment : RequestM :=
  { method := "GET", pathname := "/users/%E0%A4%A" }

/-- Hooks all of whose callbacks throw. -/
def demoThrowingHooks : Hooks DemoSchema DemoError :=
  { onRequest := some fun _ => .error .nonError
    onResponse := some fun _ => .error (.jsError "hook boom")
    onError := some fun _ => .error .nonError }

/-- A request with an empty (whitespace-only) JSON body. -/
def reqEmptyJsonBody : RequestM :=
  { method := "POST", pathname := "/b",
    headers := [("content-type", "application/json")], bodyText := " " }

/-- A request whose JSON body is malformed. -/
def reqBadJsonBody : RequestM :=
  { method := "POST", pathname := "/b",
    headers := [("content-type", "application/json")], bodyText := "not json" }

/-- A request with a repeated query key. -/
def reqAA : RequestM :=
  { method := "GET", pathname := "/q", searchParams := [("a", "1"), ("a", "2")] }

/-! # Theorems -/
/-! # Sanity examples -/

example : exTable =
    [("GET:/users/:id", exPar), ("GET:/users/me", exLit)] := rfl

example : Router.find (fun s => some s) exTable "GET" "/users/me" =
    some ⟨exLit, []⟩ := rfl

example : Router.find (fun s => some s) exTable "GET" "/users/42" =
    some ⟨exPar, [("id", "42")]⟩ := rfl

example : Router.find (fun _ => none) exTable "GET" "/users/42" =
    none := rfl

example : staticSegmentCount "/users/me" = 2 := rfl
example : staticSegmentCount "/users/:id" = 1 := rfl

/-- Loop invariant of `findAux`: the tracked score never decreases, bounds
every candidate's score, and the tracked match is either untouched or a
candidate achieving the tracked score by a strict improvement. -/
theorem findAux_spec {S : Type} (decode : String → Option String)
    (method pathname : String) (l : List (String × Contract S))
    (best : Option (RouteMatch S)) (bestScore : Int) :
    bestScore ≤ (findAux decode method pathname l (best, bestScore)).2 ∧
    (∀ key c params, (key, c) ∈ l → splitKeyMethod key = method →
      matchPath decode (splitKeyPath key) pathname = some params →
      (staticSegmentCount (splitKeyPath key) : Int) ≤
        (findAux decode method pathname l (best, bestScore)).2) ∧
    (findAux decode method pathname l (best, bestScore) = (best, bestScore) ∨
     ∃ key c params, (key, c) ∈ l ∧ splitKeyMethod key = method ∧
       matchPath decode (splitKeyPath key) pathname = some params ∧
       (findAux decode method pathname l (best, bestScore)).1 =
         some ⟨c, params⟩ ∧
       (staticSegmentCount (splitKeyPath key) : Int) =
         (findAux decode method pathname l (best, bestScore)).2 ∧
       bestScore < (findAux decode method pathname l (best, bestScore)).2) := by
  induction l generalizing best bestScore with
  | nil =>
    refine ⟨le_refl _, ?_, Or.inl rfl⟩
    intro key c params hmem
    simp at hmem
  | cons hd tl ih =>
    obtain ⟨key, contract⟩ := hd
    by_cases hm : splitKeyMethod key ≠ method
    · have hred : findAux decode method pathname ((key, contract) :: tl)
          (best, bestScore) = findAux decode method pathname tl
          (best, bestScore) := by
        simp [findAux, hm]
      obtain ⟨h1, h2, h3⟩ := ih best bestScore
      rw [hred]
      refine ⟨h1, ?_, ?_⟩
      · intro key' c' params' hmem hmeth hmatch
        rcases List.mem_cons.mp hmem with heq | hmem'
        · injection heq with hk hc
          subst hk
          exact absurd hmeth hm
        · exact h2 key' c' params' hmem' hmeth hmatch
      · rcases h3 with h3 | ⟨k, c, p, hmem, hrest⟩
        · exact Or.inl h3
        · exact Or.inr ⟨k, c, p, List.mem_cons_of_mem _ hmem, hrest⟩
    · push_neg at hm
      rcases hmp : matchPath decode (splitKeyPath key) pathname with _ | params
      · have hred : findAux decode method pathname ((key, contract) :: tl)
            (best, bestScore) = findAux decode method pathname tl
            (best, bestScore) := by
          simp [findAux, hm, hmp]
        obtain ⟨h1, h2, h3⟩ := ih best bestScore
        rw [hred]
        refine ⟨h1, ?_, ?_⟩
        · intro key' c' params' hmem hmeth hmatch
          rcases List.mem_cons.mp hmem with heq | hmem'
          · injection heq with hk hc
            subst hk
            rw [hmp] at hmatch
            simp at hmatch
          · exact h2 key' c' params' hmem' hmeth hmatch
        · rcases h3 with h3 | ⟨k, c, p, hmem, hrest⟩
          · exact Or.inl h3
          · exact Or.inr ⟨k, c, p, List.mem_cons_of_mem _ hmem, hrest⟩
      · by_cases hlt : bestScore < (staticSegmentCount (splitKeyPath key) : Int)
        · have hred : findAux decode method pathname ((key, contract) :: tl)
              (best, bestScore) = findAux decode method pathname tl
              (some ⟨contract, params⟩,
                (staticSegmentCount (splitKeyPath key) : Int)) := by
            simp [findAux, hm, hmp, hlt]
          obtain ⟨h1, h2, h3⟩ := ih (some ⟨contract, params⟩)
            (staticSegmentCount (splitKeyPath key) : Int)
          rw [hred]
          refine ⟨le_of_lt (lt_of_lt_of_le hlt h1), ?_, ?_⟩
          · intro key' c' params' hmem hmeth hmatch
            rcases List.mem_cons.mp hmem with heq | hmem'
            · injection heq with hk hc
              subst hk
              exact h1
            · exact h2 key' c' params' hmem' hmeth hmatch
          · rcases h3 with h3 | ⟨k, c, p, hmem, hmeth', hmatch', h31, h32, h33⟩
            · refine Or.inr ⟨key, contract, params, List.mem_cons_self _ _,
                hm, hmp, ?_, ?_, ?_⟩
              · rw [h3]
              · rw [h3]
              · rw [h3]; exact hlt
            · exact Or.inr ⟨k, c, p, List.mem_cons_of_mem _ hmem, hmeth',
                hmatch', h31, h32, lt_trans hlt h33⟩
        · have hred : findAux decode method pathname ((key, contract) :: tl)
              (best, bestScore) = findAux decode method pathname tl
              (best, bestScore) := by
            simp [findAux, hm, hmp, hlt]
          obtain ⟨h1, h2, h3⟩ := ih best bestScore
          rw [hred]
          refine ⟨h1, ?_, ?_⟩
          · intro key' c' params' hmem hmeth hmatch
            rcases List.mem_cons.mp hmem with heq | hmem'
            · injection heq with hk hc
              subst hk
              exact le_trans (not_lt.mp hlt) h1
            · exact h2 key' c' params' hmem' hmeth hmatch
          · rcases h3 with h3 | ⟨k, c, p, hmem, hrest⟩
            · exact Or.inl h3
            · exact Or.inr ⟨k, c, p, List.mem_cons_of_mem _ hmem, hrest⟩

/-- In an association list with no duplicate keys, a key determines its
value. -/
theorem mem_snd_eq_of_nodup_keys {α β : Type _} {l : List (α × β)}
    (hnd : (l.map Prod.fst).Nodup) {k : α} {a b : β}
    (ha : (k, a) ∈ l) (hb : (k, b) ∈ l) : a = b := by
  induction l with
  | nil => simp at ha
  | cons hd tl ih =>
    rw [List.map_cons, List.nodup_cons] at hnd
    rcases List.mem_cons.mp ha with h1 | h1 <;>
      rcases List.mem_cons.mp hb with h2 | h2
    · have h := h1.trans h2.symm
      exact congrArg Prod.snd h
    · exfalso
      apply hnd.1
      rw [← h1]
      exact List.mem_map.mpr ⟨(k, b), h2, rfl⟩
    · exfalso
      apply hnd.1
      rw [← h2]
      exact List.mem_map.mpr ⟨(k, a), h1, rfl⟩
    · exact ih hnd.2 h1 h2

/-- **C1.** `Router.find` returns a successful candidate whose specificity
score (count of static, non-parameter segments of the registered path) is
maximal among all matching candidates; and whenever one candidate's score is
strictly higher than every other matching candidate's — in particular a
literal path competing with a parameterized path of the same segment count —
`find` returns exactly that candidate, regardless of registration order. -/
theorem find_returns_highest_specificity {S : Type}
    (decode : String → Option String) (routes : List (String × Contract S))
    (method pathname : String) :
    (∀ m, Router.find decode routes method pathname = some m →
      ∃ key, IsCandidate decode routes method pathname key m.contract m.params ∧
        ∀ key' c' params',
          IsCandidate decode routes method pathname key' c' params' →
          staticSegmentCount (splitKeyPath key') ≤
            staticSegmentCount (splitKeyPath key)) ∧
    (∀ key c params, (routes.map Prod.fst).Nodup →
      IsCandidate decode routes method pathname key c params →
      (∀ key' c' params',
        IsCandidate decode routes method pathname key' c' params' →
        key' ≠ key →
        staticSegmentCount (splitKeyPath key') <
          staticSegmentCount (splitKeyPath key)) →
      Router.find decode routes method pathname = some ⟨c, params⟩) := by
  obtain ⟨h1, h2, h3⟩ := findAux_spec decode method pathname routes none (-1)
  constructor
  · intro m hm
    rcases h3 with h3 | ⟨key, c, params, hmem, hmeth, hmatch, hfind, hscore, _⟩
    · unfold Router.find at hm
      rw [h3] at hm
      simp at hm
    · unfold Router.find at hm
      rw [hfind] at hm
      injection hm with hm
      cases hm
      refine ⟨key, ⟨hmem, hmeth, hmatch⟩, ?_⟩
      intro key' c' params' hcand
      have := h2 key' c' params' hcand.1 hcand.2.1 hcand.2.2
      rw [← hscore] at this
      exact_mod_cast this
  · intro key c params hnd hcand hstrict
    have hub := h2 key c params hcand.1 hcand.2.1 hcand.2.2
    rcases h3 with h3 | ⟨key0, c0, params0, hmem0, hmeth0, hmatch0, hfind0,
      hscore0, _⟩
    · rw [h3] at hub
      simp at hub
      omega
    · by_cases hk : key0 = key
      · subst hk
        have hc : c0 = c := mem_snd_eq_of_nodup_keys hnd hmem0 hcand.1
        have hp : params0 = params := by
          have := hcand.2.2
          rw [hmatch0] at this
          injection this
        unfold Router.find
        rw [hfind0, hc, hp]
      · have hlt := hstrict key0 c0 params0 ⟨hmem0, hmeth0, hmatch0⟩ hk
        rw [← hscore0] at hub
        omega

/-- Witness for C1: with `GET /users/:id` registered **before**
`GET /users/me`, a lookup of `GET /users/me` resolves to the literal
contract. -/
theorem find_returns_highest_specificity_witness :
    Router.find (fun s => some s) exTable "GET" "/users/me" =
      some ⟨exLit, []⟩ := by
  refine (find_returns_highest_specificity (S := Unit) (fun s => some s)
    exTable "GET" "/users/me").2 "GET:/users/me" exLit []
    (by decide) ⟨by decide, by decide, by decide⟩ ?_
  intro key' c' params' hcand hne
  obtain ⟨hmem, hmeth, hmatch⟩ := hcand
  have htab : exTable = [("GET:/users/:id", exPar), ("GET:/users/me", exLit)] :=
    rfl
  rw [htab] at hmem
  rcases List.mem_cons.mp hmem with h | h
  · injection h with hk _
    subst hk
    decide
  · rcases List.mem_cons.mp h with h | h
    · injection h with hk _
      exact absurd hk hne
    · simp at h
/-! ## Decode-failure lemmas for `matchPath` (claim C9, router part) -/

/-- A failed percent-decode of a parameter-bound segment makes the whole
segment walk a non-match (`null`), never an exception. -/
theorem matchSegs_decode_fail (decode : String → Option String) :
    ∀ (rs ps : List String) (acc : List (String × String)) (i : Nat)
      (hi : i < rs.length) (hj : i < ps.length),
      strStartsWith (rs.get ⟨i, hi⟩) ":" = true →
      decode (ps.get ⟨i, hj⟩) = none →
      matchSegs decode rs ps acc = none := by
  intro rs
  induction rs with
  | nil =>
    intro ps acc i hi
    simp at hi
  | cons r rrest ih =>
    intro ps acc i hi hj hparam hfail
    cases ps with
    | nil => simp at hj
    | cons p prest =>
      cases i with
      | zero =>
        simp only [List.get] at hparam hfail
        simp [matchSegs, hparam, hfail]
      | succ n =>
        have hi' : n < rrest.length := by
          simpa using hi
        have hj' : n < prest.length := by
          simpa using hj
        have hparam' : strStartsWith (rrest.get ⟨n, hi'⟩) ":" = true := by
          simpa using hparam
        have hfail' : decode (prest.get ⟨n, hj'⟩) = none := by
          simpa using hfail
        show (if strStartsWith r ":" = true then _ else _) = none
        by_cases hr : strStartsWith r ":" = true
        · rw [if_pos hr]
          cases hd : decode p
          · rfl
          · exact ih prest _ n hi' hj' hparam' hfail'
        · rw [if_neg hr]
          by_cases hrp : r = p
          · rw [if_pos hrp]
            exact ih prest _ n hi' hj' hparam' hfail'
          · rw [if_neg hrp]

/-- `matchPath` version of the decode-failure lemma. -/
theorem matchPath_decode_fail (decode : String → Option String)
    (routePath pathname : String) (i : Nat)
    (hi : i < (segsOf routePath).length)
    (hj : i < (segsOf pathname).length)
    (hparam : strStartsWith ((segsOf routePath).get ⟨i, hi⟩) ":" = true)
    (hfail : decode ((segsOf pathname).get ⟨i, hj⟩) = none) :
    matchPath decode routePath pathname = none := by
  unfold matchPath
  by_cases hlen : (segsOf routePath).length ≠ (segsOf pathname).length
  · rw [if_pos hlen]
  · rw [if_neg hlen]
    exact matchSegs_decode_fail decode _ _ [] i hi hj hparam hfail


/-! ## Plain-object lookup lemmas -/

/-- Lookup after assignment on a plain object. -/
theorem objGet_objSet (acc : List (String × Val)) (a k : String) (v : Val) :
    objGet (objSet acc a v) k = if a = k then some v else objGet acc k := by
  induction acc with
  | nil => simp [objSet, objGet]
  | cons hd tl ih =>
    obtain ⟨k', v'⟩ := hd
    by_cases h1 : k' = a
    · subst h1
      by_cases h2 : k' = k
      · subst h2
        simp [objSet, objGet]
      · simp [objSet, objGet, h2, fun h : k' = k => h2 h]
    · by_cases h2 : k' = k
      · subst h2
        simp [objSet, objGet, h1]
        rw [if_neg (fun h : a = k' => h1 h.symm)]
      · simp [objSet, objGet, h1, h2, ih]

/-- `Object.fromEntries` as a right-to-left option fold. -/
theorem objGet_fromEntries_fold (entries : List (String × String))
    (acc : List (String × Val)) (k : String) :
    objGet (entries.foldl (fun a kv => objSet a kv.1 (.str kv.2)) acc) k =
      entries.foldl (fun (r : Option Val) kv =>
        if kv.1 = k then some (.str kv.2) else r) (objGet acc k) := by
  induction entries generalizing acc with
  | nil => rfl
  | cons e rest ih =>
    simp only [List.foldl_cons]
    rw [ih, objGet_objSet]

/-- Folding string options commutes with mapping into `Val.str`. -/
theorem foldl_option_map_str (entries : List (String × String)) (k : String)
    (o : Option String) :
    entries.foldl (fun (r : Option Val) kv =>
        if kv.1 = k then some (.str kv.2) else r) (o.map Val.str) =
      (entries.foldl (fun (r : Option String) kv =>
        if kv.1 = k then some kv.2 else r) o).map Val.str := by
  induction entries generalizing o with
  | nil => rfl
  | cons e rest ih =>
    simp only [List.foldl_cons]
    by_cases h : e.1 = k
    · rw [if_pos h, if_pos h]
      exact ih (some e.2)
    · rw [if_neg h, if_neg h]
      exact ih o

/-- Every key of `Object.fromEntries(pairs)` holds the **last** value the
pair list assigns to it. -/
theorem objGet_jsFromEntries (sp : List (String × String)) (k : String) :
    objGet (jsFromEntries sp) k = (jsLastValue sp k).map Val.str := by
  unfold jsFromEntries jsLastValue
  rw [objGet_fromEntries_fold]
  have h : objGet ([] : List (String × Val)) k =
      (Option.map Val.str (none : Option String)) := rfl
  rw [h, foldl_option_map_str]

/-! ## Claim C5 -/

/-- **C5 (amended).** When a contract omits a query schema, the query object
written onto the context before the handler runs is
`Object.fromEntries(url.searchParams)`: keys keep first-occurrence order,
each key holds the **last** value of the raw query string, and repeated keys
are *not* promoted to lists. -/
theorem query_without_schema_is_fromEntries {S E : Type} (env : JsEnv E)
    (v : Validator S E) (c : Contract S) (params : List (String × String))
    (req : RequestM) (hq : c.query = none) :
    (∀ ctx, buildContext env v c params req = .ok ctx →
      ctx.query = .obj (jsFromEntries req.searchParams)) ∧
    (∀ k, objGet (jsFromEntries req.searchParams) k =
      (jsLastValue req.searchParams k).map Val.str) := by
  constructor
  · intro ctx h
    unfold buildContext at h
    cases hp : paramsPhase v c params with
    | error e =>
      rw [hp] at h
      simp [Bind.bind, Except.bind] at h
    | ok pv =>
      rw [hp] at h
      have hqp : queryPhase env v c req.searchParams =
          .ok (.obj (jsFromEntries req.searchParams)) := by
        unfold queryPhase
        rw [hq]
      rw [hqp] at h
      cases hh : headersPhase v c req.headers with
      | error e =>
        rw [hh] at h
        simp [Bind.bind, Except.bind] at h
      | ok hv =>
        rw [hh] at h
        cases hb : bodyPhase env v c req with
        | error e =>
          rw [hb] at h
          simp [Bind.bind, Except.bind] at h
        | ok bv =>
          rw [hb] at h
          simp [Bind.bind, Except.bind] at h
          rw [← h]
  · intro k
    exact objGet_jsFromEntries req.searchParams k

/-- Counterexample to C5 as stated: for query `a=1&a=2` the context value is
`{a: "2"}` (last value wins, no list), not the claimed first-value-wins
flattening with list promotion `{a: ["1","2"]}`. -/
theorem query_without_schema_counterexample :
    queryPhase demoEnv demoValidator cNoSchema reqAA.searchParams =
      .ok (.obj [("a", .str "2")]) ∧
    specQueryFlatten reqAA.searchParams =
      .obj [("a", .arr [.str "1", .str "2"])] ∧
    Val.obj [("a", .str "2")] ≠ .obj [("a", .arr [.str "1", .str "2"])] :=
  ⟨rfl, rfl, by simp⟩

/-- Witness for C5 (amended): the full phase pipeline writes `{a: "2"}` for
query `a=1&a=2` on a schemaless contract. -/
theorem query_without_schema_is_fromEntries_witness :
    ({ request := reqAA, params := .obj [], query := .obj [("a", .str "2")],
       body := .obj [], headers := .obj [] } : Ctx).query =
      .obj (jsFromEntries reqAA.searchParams) := by
  exact (query_without_schema_is_fromEntries demoEnv demoValidator cNoSchema
    [] reqAA rfl).1
    { request := reqAA, params := .obj [], query := .obj [("a", .str "2")],
      body := .obj [], headers := .obj [] } rfl

/-! ## Claim C2 -/

/-- **C2.** With an adapter exposing error-path introspection: the raw
string-valued query object is validated first and success is final; on
failure exactly the reported failing top-level keys — and only those — are
coerced, validation runs exactly once more and that second result is final;
keys not reported failing keep their raw values (and key order is
preserved). -/
theorem parseQuery_single_coercion_retry {S E : Type} (env : JsEnv E)
    (v : Validator S E) (schema : S) (searchParams : List (String × String))
    (getErrorPaths : E → List String)
    (hgep : v.getErrorPaths = some getErrorPaths) :
    (∀ d, v.parse schema (queryObjToVal (buildQueryObj searchParams)) = .ok d →
      parseQuery env v schema searchParams = .ok d) ∧
    (∀ e, v.parse schema (queryObjToVal (buildQueryObj searchParams)) =
        .error e →
      getErrorPaths e ≠ [] →
      parseQuery env v schema searchParams =
        v.parse schema
          (.obj (coerceQueryObject env (buildQueryObj searchParams)
            (getErrorPaths e)))) ∧
    (∀ e, v.parse schema (queryObjToVal (buildQueryObj searchParams)) =
        .error e →
      getErrorPaths e = [] →
      parseQuery env v schema searchParams = .error e) ∧
    (∀ (obj : List (String × QueryVal)) keys,
      (coerceQueryObject env obj keys).map Prod.fst = obj.map Prod.fst) ∧
    (∀ (obj : List (String × QueryVal)) keys k qv,
      (k, qv) ∈ obj → k ∉ keys →
      (k, queryValToVal qv) ∈ coerceQueryObject env obj keys) ∧
    (∀ (obj : List (String × QueryVal)) keys k s,
      (k, QueryVal.single s) ∈ obj → k ∈ keys →
      (k, coerceQueryValue env s) ∈ coerceQueryObject env obj keys) := by
  refine ⟨?_, ?_, ?_, ?_, ?_, ?_⟩
  · intro d h
    unfold parseQuery
    dsimp only
    rw [h]
  · intro e h hne
    unfold parseQuery
    dsimp only
    rw [h, hgep]
    simp only [List.isEmpty_iff]
    rw [if_neg hne]
  · intro e h hemp
    unfold parseQuery
    dsimp only
    rw [h, hgep]
    simp only [List.isEmpty_iff]
    rw [if_pos hemp]
  · intro obj keys
    induction obj with
    | nil => rfl
    | cons kv rest ih =>
      by_cases h : kv.1 ∈ keys <;>
        simp [coerceQueryObject, h] <;>
        simpa [coerceQueryObject] using ih
  · intro obj keys k qv hmem hk
    refine List.mem_map.mpr ⟨(k, qv), hmem, ?_⟩
    simp [hk]
  · intro obj keys k s hmem hk
    refine List.mem_map.mpr ⟨(k, .single s), hmem, ?_⟩
    simp [hk]

/-- Witness for C2: schema `{id: string, page: number}` with query
`id=123&page=2` validates to `id = "123"` (string preserved) and
`page = 2` (number coerced). -/
theorem parseQuery_single_coercion_retry_witness :
    parseQuery demoEnv demoValidator demoQuerySchema
        [("id", "123"), ("page", "2")] =
      .ok (.obj [("id", .str "123"), ("page", .num 2)]) := by
  have h := (parseQuery_single_coercion_retry demoEnv demoValidator
      demoQuerySchema [("id", "123"), ("page", "2")] id rfl).2.1
      ["page"] rfl (by simp)
  rw [h]
  rfl

/-! ## Claim C10 -/

/-- **C10.** For a JSON-typed request body against a declared body schema:
an empty/whitespace-only body is handed to schema validation as `undefined`
(so an optional-body schema succeeds with `undefined`); a non-empty body
that is not valid JSON short-circuits as a parse-level 400 `INVALID_BODY`
for *every* validator, without invoking schema validation. -/
theorem parseBody_json_empty_and_malformed {S E : Type} (env : JsEnv E)
    (v : Validator S E) (schema : S) (req : RequestM)
    (hct : strIncludes ((headersGet req.headers "content-type").getD "")
      "application/json" = true) :
    (strTrim req.bodyText = "" →
      parseBody env v schema req = (v.parse schema .undef).mapError Sum.inr) ∧
    (∀ v' : Validator S E, strTrim req.bodyText ≠ "" →
      env.jsonParse req.bodyText = none →
      parseBody env v' schema req = .error (.inl "Invalid JSON")) ∧
    (∀ c : Contract S, c.body = some schema →
      ∀ params pv qv hv,
        paramsPhase v c params = .ok pv →
        queryPhase env v c req.searchParams = .ok qv →
        headersPhase v c req.headers = .ok hv →
        (req.method = "POST" ∨ req.method = "PUT" ∨ req.method = "PATCH" ∨
          req.method = "DELETE") →
        strTrim req.bodyText ≠ "" →
        env.jsonParse req.bodyText = none →
        buildContext env v c params req =
          .error ⟨400, "Invalid body", "INVALID_BODY", .inl "Invalid JSON"⟩) := by
  refine ⟨?_, ?_, ?_⟩
  · intro hempty
    unfold parseBody
    dsimp only
    simp [hct, hempty]
  · intro v' hne hparse
    unfold parseBody
    dsimp only
    simp [hct, hne, hparse]
  · intro c hc params pv qv hv hp hq hh hm hne hparse
    have hpb : parseBody env v schema req = .error (.inl "Invalid JSON") := by
      unfold parseBody
      dsimp only
      simp [hct, hne, hparse]
    have hbp : bodyPhase env v c req =
        .error ⟨400, "Invalid body", "INVALID_BODY", .inl "Invalid JSON"⟩ := by
      unfold bodyPhase
      rw [hc]
      dsimp only
      rw [if_pos hm, hpb]
    unfold buildContext
    rw [hp, hq, hh, hbp]
    rfl

/-- Witness for C10: an optional-body schema validates a whitespace-only
JSON body as `undefined`; a malformed JSON body yields the parse-level
`Invalid JSON` failure. -/
theorem parseBody_json_empty_and_malformed_witness :
    parseBody demoEnv demoValidator (.optionalRecord []) reqEmptyJsonBody =
      .ok .undef ∧
    parseBody demoEnv demoValidator (.optionalRecord []) reqBadJsonBody =
      .error (.inl "Invalid JSON") := by
  constructor
  · have h := (parseBody_json_empty_and_malformed demoEnv demoValidator
      (.optionalRecord []) reqEmptyJsonBody rfl).1 rfl
    rw [h]
    rfl
  · exact (parseBody_json_empty_and_malformed demoEnv demoValidator
      (.optionalRecord []) reqBadJsonBody rfl).2.1 demoValidator
      (by decide) rfl

/-! ## Claim C3 -/

/-- **C3.** Response validation looks the schema up by the actual numeric
status: no declared schema for that status → the response is returned
unchanged and never checked, regardless of mode; a read body failing the
status-specific schema → the handler's response is discarded for a 500
`INVALID_RESPONSE` carrying the adapter error as details; a conforming body
→ the response is returned unchanged. -/
theorem response_validated_by_actual_status {S E : Type} (env : JsEnv E)
    (v : Validator S E) (mode : RVMode) (c : Contract S) (r : ResponseM) :
    ((c.response = none ∨
      ∃ schemas, c.response = some schemas ∧
        lookupResponseSchema schemas r.status = none) →
      validateResponse env v mode c r = .ok () ∧
      respondAfterHandler env v mode c r = r) ∧
    (∀ schemas schema d e,
      shouldValidateResponse env mode = true →
      c.response = some schemas →
      lookupResponseSchema schemas r.status = some schema →
      readResponseBody env r = .data d →
      v.parse schema d = .error e →
      validateResponse env v mode c r = .error (.inr e) ∧
      respondAfterHandler env v mode c r =
        errorResponse env 500 "Invalid response" (some "INVALID_RESPONSE")
          (some (.inr e))) ∧
    (∀ schemas schema d d',
      c.response = some schemas →
      lookupResponseSchema schemas r.status = some schema →
      readResponseBody env r = .data d →
      v.parse schema d = .ok d' →
      respondAfterHandler env v mode c r = r) := by
  refine ⟨?_, ?_, ?_⟩
  · intro h
    have hval : validateResponse env v mode c r = .ok () := by
      unfold validateResponse
      cases hsv : shouldValidateResponse env mode with
      | false => simp [hsv]
      | true =>
        rcases h with h | ⟨schemas, hs, hl⟩
        · simp [hsv, h]
        · simp [hsv, hs, hl]
    refine ⟨hval, ?_⟩
    unfold respondAfterHandler
    rw [hval]
  · intro schemas schema d e hsv hs hl hread hparse
    have hval : validateResponse env v mode c r = .error (.inr e) := by
      unfold validateResponse
      simp [hsv, hs, hl, hread, hparse]
    refine ⟨hval, ?_⟩
    unfold respondAfterHandler
    rw [hval]
  · intro schemas schema d d' hs hl hread hparse
    have hval : validateResponse env v mode c r = .ok () := by
      unfold validateResponse
      cases hsv : shouldValidateResponse env mode with
      | false => simp [hsv]
      | true => simp [hsv, hs, hl, hread, hparse]
    unfold respondAfterHandler
    rw [hval]

/-- Witness for C3: a 200 response missing the required `name` field of the
declared 200 schema is replaced by the 500 `INVALID_RESPONSE` error
response. -/
theorem response_validated_by_actual_status_witness :
    respondAfterHandler demoEnv demoValidator .always cResp200 rBad200 =
      errorResponse demoEnv 500 "Invalid response" (some "INVALID_RESPONSE")
        (some (.inr ["name"])) := by
  exact ((response_validated_by_actual_status demoEnv demoValidator .always
    cResp200 rBad200).2.1
    [(200, .record [("id", .fstring), ("name", .fstring)])]
    (.record [("id", .fstring), ("name", .fstring)])
    (.obj [("id", .str "1")]) ["name"] rfl rfl rfl rfl rfl).2

/-! ## Claim C4 -/

/-- **C4 (amended).** When response validation is active and a schema is
declared for the response's status, a 204/304 or bodyless response is read
as the value `undefined` and **validated against the declared schema**: it
passes exactly when the schema accepts `undefined`, not unconditionally. -/
theorem resp_204_304_bodyless_validates_undefined {S E : Type}
    (env : JsEnv E) (v : Validator S E) (mode : RVMode) (c : Contract S)
    (r : ResponseM) (schemas : List (Nat × S)) (schema : S)
    (hsv : shouldValidateResponse env mode = true)
    (hs : c.response = some schemas)
    (hl : lookupResponseSchema schemas r.status = some schema)
    (hcase : r.status = 204 ∨ r.status = 304 ∨ r.body = none) :
    readResponseBody env r = .data .undef ∧
    validateResponse env v mode c r =
      (match v.parse schema Val.undef with
        | .ok _ => Except.ok ()
        | .error e => Except.error (.inr e)) := by
  have hread : readResponseBody env r = .data .undef := by
    unfold readResponseBody
    rcases hcase with h | h | h
    · rw [if_pos (Or.inl h)]
    · rw [if_pos (Or.inr h)]
    · by_cases hst : r.status = 204 ∨ r.status = 304
      · rw [if_pos hst]
      · rw [if_neg hst, h]
  refine ⟨hread, ?_⟩
  unfold validateResponse
  simp [hsv, hs, hl, hread]

/-- Counterexample to C4 as stated: a 204 response against a declared
204 schema that rejects `undefined` does **not** validate trivially — the
schema is consulted and fails, replacing the response with a 500. -/
theorem resp_204_consults_schema_counterexample :
    validateResponse demoEnv demoValidator .always c204 r204 =
      .error (.inr ["x"]) ∧
    respondAfterHandler demoEnv demoValidator .always c204 r204 ≠ r204 :=
  ⟨rfl, by decide⟩

/-- Witness for C4 (amended), instantiated at the 204 fixture. -/
theorem resp_204_304_bodyless_validates_undefined_witness :
    readResponseBody demoEnv r204 = .data .undef ∧
    validateResponse demoEnv demoValidator .always c204 r204 =
      .error (.inr ["x"]) := by
  have h := resp_204_304_bodyless_validates_undefined demoEnv demoValidator
    .always c204 r204 [(204, .record [("x", .fstring)])]
    (.record [("x", .fstring)]) rfl rfl rfl (Or.inl rfl)
  refine ⟨h.1, ?_⟩
  rw [h.2]
  rfl

/-! ## Claim C6 -/

/-- **C6 (amended).** For a response **with a body** (and status other than
204/304) whose content type contains `text/event-stream` or
`application/x-ndjson`, or whose `content-length` declares more than 1 MiB,
response validation is skipped and treated as a pass — for every mode and
every declared schema — and the response is returned unchanged, never as an
`INVALID_RESPONSE`. -/
theorem streaming_or_oversized_skips_validation {S E : Type} (env : JsEnv E)
    (v : Validator S E) (c : Contract S) (r : ResponseM)
    (hbody : r.body ≠ none)
    (hstatus : ¬(r.status = 204 ∨ r.status = 304))
    (hcase :
      strIncludes (strToLower (responseNormalizedType r))
        "text/event-stream" = true ∨
      strIncludes (strToLower (responseNormalizedType r))
        "application/x-ndjson" = true ∨
      ∃ cl, headersGet r.headers "content-length" = some cl ∧ cl ≠ "" ∧
        env.jsNumberFinite cl = true ∧ ¬(env.jsNumber cl < 0) ∧
        (RESPONSE_VALIDATION_MAX_BODY_BYTES : ℚ) < env.jsNumber cl) :
    readResponseBody env r = .skipped ∧
    (∀ mode, validateResponse env v mode c r = .ok ()) ∧
    (∀ mode, respondAfterHandler env v mode c r = r) := by
  obtain ⟨body, hb⟩ := Option.ne_none_iff_exists'.mp hbody
  have hskip : shouldSkipResponseBodyValidation env r
      (responseNormalizedType r) = true := by
    unfold shouldSkipResponseBodyValidation
    rw [hb]
    dsimp only
    by_cases hinc : (strIncludes (strToLower (responseNormalizedType r))
        "text/event-stream" ||
      strIncludes (strToLower (responseNormalizedType r))
        "application/x-ndjson") = true
    · rw [if_pos hinc]
    · rw [if_neg hinc]
      rcases hcase with h | h | ⟨cl, hcl, hne, hfin, hnonneg, hbig⟩
      · exact absurd (by rw [h]; rfl) hinc
      · exact absurd (by rw [h, Bool.or_true]) hinc
      · rw [hcl]
        simp [hne, hfin, hnonneg, hbig]
  have hread : readResponseBody env r = .skipped := by
    unfold readResponseBody
    rw [if_neg hstatus, hb]
    dsimp only
    simp only [responseNormalizedType] at hskip
    simp [hskip]
  have hval : ∀ mode, validateResponse env v mode c r = .ok () := by
    intro mode
    unfold validateResponse
    cases hsv : shouldValidateResponse env mode with
    | false => simp [hsv]
    | true =>
      cases hcr : c.response with
      | none => simp [hsv]
      | some schemas =>
        cases hl : lookupResponseSchema schemas r.status with
        | none => simp [hsv, hl]
        | some schema => simp [hsv, hl, hread]
  refine ⟨hread, hval, ?_⟩
  intro mode
  unfold respondAfterHandler
  rw [hval mode]

/-- Counterexample to C6 as stated: a **bodyless** response claiming the SSE
content type is not skipped — its body reads as `undefined`, the declared
200 schema is consulted and fails, and the pipeline yields
`INVALID_RESPONSE`. -/
theorem sse_bodyless_counterexample :
    strIncludes (strToLower ((headersGet rSSEBodyless.headers
      "content-type").getD "")) "text/event-stream" = true ∧
    validateResponse demoEnv demoValidator .always cSSE rSSEBodyless =
      .error (.inr ["x"]) ∧
    respondAfterHandler demoEnv demoValidator .always cSSE rSSEBodyless ≠
      rSSEBodyless :=
  ⟨rfl, rfl, by decide⟩

/-- Witness for C6 (amended): a live SSE stream response under mode
`always` is skipped and returned unchanged. -/
theorem streaming_or_oversized_skips_validation_witness :
    readResponseBody demoEnv rSSEStream = .skipped ∧
    validateResponse demoEnv demoValidator .always cSSE rSSEStream =
      .ok () ∧
    respondAfterHandler demoEnv demoValidator .always cSSE rSSEStream =
      rSSEStream := by
  have h := streaming_or_oversized_skips_validation demoEnv demoValidator
    cSSE rSSEStream (by decide) (by decide) (Or.inl (by decide))
  exact ⟨h.1, h.2.1 .always, h.2.2 .always⟩

/-! ## Claim C7 -/

/-- `invokeHook` never fails: absent hooks are skipped and hook exceptions
are caught and discarded. -/
theorem invokeHook_eq_ok {S E : Type}
    (hook : Option (HookEvent S E → Except (Thrown E) Unit))
    (event : HookEvent S E) : invokeHook hook event = .ok () := by
  unfold invokeHook
  cases hook with
  | none => rfl
  | some h => cases hev : h event <;> simp [hev]

/-- **C7.** For any configuration of hooks all of whose callbacks throw, the
response returned by `fetch` (status, headers and body alike) is identical
to the response for the same request on the same app with no hooks
configured. -/
theorem throwing_hooks_never_alter_outcome {S E : Type} (env : JsEnv E)
    (app : AppM S E) (req : RequestM) (h : Hooks S E)
    (hreq : ∀ f, h.onRequest = some f → ∀ ev, ∃ t, f ev = .error t)
    (hresp : ∀ f, h.onResponse = some f → ∀ ev, ∃ t, f ev = .error t)
    (herr : ∀ f, h.onError = some f → ∀ ev, ∃ t, f ev = .error t) :
    fetch env { app with hooks := h } req =
      fetch env { app with hooks := {} } req := by
  unfold fetch fetchE
  simp only [invokeHook_eq_ok]

/-- Witness for C7 on a concrete app and request with throwing hooks. -/
theorem throwing_hooks_never_alter_outcome_witness :
    fetch demoEnv { appUserById with hooks := demoThrowingHooks }
        reqBadSegment =
      fetch demoEnv { appUserById with hooks := {} } reqBadSegment := by
  refine throwing_hooks_never_alter_outcome demoEnv appUserById reqBadSegment
    demoThrowingHooks ?_ ?_ ?_
  · intro f hf ev
    simp only [demoThrowingHooks] at hf
    injection hf with hf
    exact ⟨.nonError, by rw [← hf]⟩
  · intro f hf ev
    simp only [demoThrowingHooks] at hf
    injection hf with hf
    exact ⟨.jsError "hook boom", by rw [← hf]⟩
  · intro f hf ev
    simp only [demoThrowingHooks] at hf
    injection hf with hf
    exact ⟨.nonError, by rw [← hf]⟩

/-! ## Claim C8 -/

/-- State invariant of the hook-view machine: the clone-operation count
grows by one exactly on the first body-reading access, the memo flag records
whether any body read happened, and the original is never read or locked. -/
theorem hookViewRun_spec (ops : List HookOp) (s : HookViewState) :
    (hookViewRun s ops).cloneOps =
      s.cloneOps + (if !s.hasBodyClone && ops.any HookOp.isBodyRead
        then 1 else 0) ∧
    (hookViewRun s ops).hasBodyClone =
      (s.hasBodyClone || ops.any HookOp.isBodyRead) ∧
    (hookViewRun s ops).originalRead = s.originalRead ∧
    (hookViewRun s ops).originalLocked = s.originalLocked := by
  induction ops generalizing s with
  | nil => simp [hookViewRun]
  | cons op rest ih =>
    have hrun : hookViewRun s (op :: rest) =
        hookViewRun (hookViewStep s op) rest := rfl
    rw [hrun]
    obtain ⟨ih1, ih2, ih3, ih4⟩ := ih (hookViewStep s op)
    cases op <;>
      by_cases hmemo : s.hasBodyClone = true <;>
      simp_all [hookViewStep, getBodyClone, HookOp.isBodyRead]

/-- **C8.** Per hook event: a view clones lazily and at most once — the
clone count after any access sequence is exactly one if some access read the
body (text/json/arrayBuffer/blob/formData/bytes or a stream pull) and
exactly zero otherwise (in particular for metadata-only access or no access
at all), and no access ever reads or locks the original stream. -/
theorem hook_view_zero_copy (ops : List HookOp) :
    ((hookViewRun {} ops).cloneOps =
      if ops.any HookOp.isBodyRead then 1 else 0) ∧
    (hookViewRun {} ops).cloneOps ≤ 1 ∧
    (hookViewRun {} ops).originalRead = false ∧
    (hookViewRun {} ops).originalLocked = false := by
  obtain ⟨h1, h2, h3, h4⟩ := hookViewRun_spec ops {}
  refine ⟨by simpa using h1, ?_, h3, h4⟩
  rw [show ({} : HookViewState).cloneOps = 0 from rfl] at h1
  rw [h1]
  by_cases h : ops.any HookOp.isBodyRead = true <;> simp [h]

/-! ## Claim C9 -/

/-- **C9.** A pathname segment failing percent-decoding makes the
parameterized candidate a non-match (never an exception), and when no route
matches at all, `fetch` returns the 404 `ROUTE_NOT_FOUND` error response —
whose status is 404, not 500. -/
theorem decode_failure_yields_404 {S E : Type} (env : JsEnv E)
    (app : AppM S E) (req : RequestM) :
    (∀ routePath i (hi : i < (segsOf routePath).length)
        (hj : i < (segsOf req.pathname).length),
      strStartsWith ((segsOf routePath).get ⟨i, hi⟩) ":" = true →
      env.decodeURIComponent ((segsOf req.pathname).get ⟨i, hj⟩) = none →
      matchPath env.decodeURIComponent routePath req.pathname = none) ∧
    (Router.find env.decodeURIComponent app.routes req.method req.pathname =
        none →
      fetch env app req =
        errorResponse env 404 "Not Found" (some "ROUTE_NOT_FOUND") ∧
      (errorResponse (E := E) env 404 "Not Found"
        (some "ROUTE_NOT_FOUND")).status = 404) := by
  constructor
  · intro routePath i hi hj hparam hfail
    exact matchPath_decode_fail env.decodeURIComponent routePath req.pathname
      i hi hj hparam hfail
  · intro hfind
    constructor
    · unfold fetch fetchE
      simp only [invokeHook_eq_ok, hfind]
      rfl
    · show normalizeStatusCode 404 = 404
      decide

/-- Witness for C9: with a decoder that always throws, `GET /users/:id`
does not match `/users/%E0%A4%A` and `fetch` answers the 404 error
response. -/
theorem decode_failure_yields_404_witness :
    Router.find demoEnvBadDecode.decodeURIComponent appUserById.routes
      reqBadSegment.method reqBadSegment.pathname = none ∧
    fetch demoEnvBadDecode appUserById reqBadSegment =
      errorResponse demoEnvBadDecode 404 "Not Found"
        (some "ROUTE_NOT_FOUND") := by
  refine ⟨rfl, ?_⟩
  exact ((decode_failure_yields_404 demoEnvBadDecode appUserById
    reqBadSegment).2 rfl).1
